import Mathlib

/-!
Verification development for the Dish-Line bill-collect application.

The definitions below are a shallow embedding of the data model in
`src/types.ts` and of the mutation functions of the `DataProvider` in
`src/contexts.tsx` (and of the `useSubscriptionStatus` hook in the unnamed
UI source file).  Each TypeScript mutation reads the in-memory collection
state and issues one atomic Firestore batch; we model a mutation as a pure
function from the collection state (`DataState`) to a `MutationResult`
together with the post-commit state.  Firestore-generated fresh document
ids are passed in as explicit parameters.  ISO date strings are modelled at
day granularity by `SimpleDate` (the code only ever compares dates and
extracts year/month/day; time-of-day and timezone conversion performed by
`Date#toISOString` are below the granularity of every property considered
here).  JavaScript numbers holding money amounts are modelled as `Int`.
-/

namespace DishLine

/-- Calendar date at day granularity (stands for the ISO date strings and
`Date` values of the source). -/
structure SimpleDate where
  year : Nat
  month : Nat
  day : Nat
deriving DecidableEq

/-- Strict comparison of dates, as `Date` comparison in JS (the source
compares millisecond timestamps; at day granularity this is the
lexicographic order on (year, month, day)). -/
def dateLt (a b : SimpleDate) : Bool :=
  a.year < b.year ∨ (a.year = b.year ∧ (a.month < b.month ∨ (a.month = b.month ∧ a.day < b.day)))

/-- Enum `ConnectionStatus` of `src/types.ts`. -/
inductive ConnectionStatus where
  | ACTIVE
  | INACTIVE
  | PAUSED
deriving DecidableEq

/-- Enum `BillStatus` of `src/types.ts`. -/
inductive BillStatus where
  | PAID
  | UNPAID
deriving DecidableEq

/-- Record `Customer` of `src/types.ts`. -/
structure Customer where
  id : String
  name : String
  phone : String
  address : String
  area : String
  monthlyBill : Int
  connectionStatus : ConnectionStatus
  startDate : SimpleDate
  openingDue : Int
  reactivationDate : Option SimpleDate
deriving DecidableEq

/-- Record `Payment` of `src/types.ts`. -/
structure Payment where
  id : String
  customerId : String
  amount : Int
  date : SimpleDate
  notes : Option String
deriving DecidableEq

/-- Record `Bill` of `src/types.ts`. -/
structure Bill where
  id : String
  customerId : String
  amount : Int
  month : Nat
  year : Nat
  status : BillStatus
  dueDate : SimpleDate
  paidDate : Option SimpleDate
  paymentId : Option String
  paidAmount : Option Int
deriving DecidableEq

/-- Record `DuePayment` of `src/types.ts`. -/
structure DuePayment where
  id : String
  customerId : String
  amount : Int
  date : SimpleDate
  notes : Option String
deriving DecidableEq

/-- Record `Area` of `src/types.ts`. -/
structure Area where
  id : String
  name : String
deriving DecidableEq

/-- The in-memory collection state held by the `DataProvider`
(`customers`, `payments`, `areas`, `duePayments`, `bills`). -/
structure DataState where
  customers : List Customer
  payments : List Payment
  areas : List Area
  duePayments : List DuePayment
  bills : List Bill
deriving DecidableEq

/-- Result shape `MutationResult` `{ success: boolean; message?: string }`. -/
structure MutationResult where
  success : Bool
  message : Option String
deriving DecidableEq

/-- Input of `addDuePayment` / `addPayment`: the record without its `id`
(`Omit<DuePayment,'id'>` / `Omit<Payment,'id'>`). -/
structure PaymentData where
  customerId : String
  amount : Int
  date : SimpleDate
  notes : Option String
deriving DecidableEq

/-- Embedding of `addArea` (`src/contexts.tsx` lines 414-426): rejects an empty name
(`!name`) and a name equal, after `toLowerCase`, to an existing area's
name; otherwise `addDoc` creates one area document with the given name
(fresh id `newId`).  We model the authenticated case (`userId` present). -/
def addArea (name : String) (newId : String) (s : DataState) : MutationResult × DataState :=
  if name = "" ∨ (s.areas.any fun a => a.name.toLower == name.toLower) then
    (⟨false, some "Area already exists or name is invalid."⟩, s)
  else
    (⟨true, none⟩, { s with areas := s.areas ++ [⟨newId, name⟩] })

/-- Embedding of `addDuePayment` (`src/contexts.tsx` lines 531-551): looks the customer
up; on success the batch creates the due payment (fresh id `newId`) and
sets the customer document's `openingDue` to `customer.openingDue -
paymentData.amount`. -/
def addDuePayment (pd : PaymentData) (newId : String) (s : DataState) : MutationResult × DataState :=
  match s.customers.find? (fun c => c.id == pd.customerId) with
  | none => (⟨false, some "Customer not found."⟩, s)
  | some customer =>
    (⟨true, none⟩,
     { s with
       duePayments := s.duePayments ++ [⟨newId, pd.customerId, pd.amount, pd.date, pd.notes⟩],
       customers := s.customers.map fun x =>
         if x.id = customer.id then { x with openingDue := customer.openingDue - pd.amount } else x })

/-- Embedding of `updateDuePayment` (`src/contexts.tsx` lines 553-576): looks up the
original due payment by id and the customer by the updated record's
`customerId`; on success the batch overwrites the due-payment document
with the updated fields and sets `openingDue` to `customer.openingDue -
(updatedPayment.amount - originalPayment.amount)`. -/
def updateDuePayment (up : DuePayment) (s : DataState) : MutationResult × DataState :=
  match s.duePayments.find? (fun p => p.id == up.id), s.customers.find? (fun c => c.id == up.customerId) with
  | some originalPayment, some customer =>
    (⟨true, none⟩,
     { s with
       duePayments := s.duePayments.map fun p => if p.id = up.id then up else p,
       customers := s.customers.map fun x =>
         if x.id = customer.id then
           { x with openingDue := customer.openingDue - (up.amount - originalPayment.amount) }
         else x })
  | _, _ => (⟨false, some "Payment or customer not found."⟩, s)

/-- Embedding of `deleteDuePayment` (`src/contexts.tsx` lines 578-599): looks up the
due payment by id and then its customer; on success the batch deletes the
due-payment document and sets `openingDue` to `customer.openingDue +
paymentToDelete.amount`. -/
def deleteDuePayment (paymentId : String) (s : DataState) : MutationResult × DataState :=
  match s.duePayments.find? (fun p => p.id == paymentId) with
  | none => (⟨false, some "Payment or customer not found."⟩, s)
  | some paymentToDelete =>
    match s.customers.find? (fun c => c.id == paymentToDelete.customerId) with
    | none => (⟨false, some "Payment or customer not found."⟩, s)
    | some customer =>
      (⟨true, none⟩,
       { s with
         duePayments := s.duePayments.filter fun p => !(p.id == paymentId),
         customers := s.customers.map fun x =>
           if x.id = customer.id then { x with openingDue := customer.openingDue + paymentToDelete.amount } else x })

/-- The bill update `deletePayment` issues for each bill referencing the
undone payment: `{ status: UNPAID, paidDate: deleteField(), paymentId:
deleteField() }`. -/
def clearPayment (b : Bill) : Bill :=
  { b with status := .UNPAID, paidDate := none, paymentId := none }

/-- Embedding of `deletePayment` (`src/contexts.tsx` lines 454-473): the batch reverts
every bill whose `paymentId` equals the argument and deletes the payment
document (a Firestore batched delete of a possibly-absent document is a
no-op, modelled by `filter`). -/
def deletePayment (paymentId : String) (s : DataState) : MutationResult × DataState :=
  (⟨true, none⟩,
   { s with
     bills := s.bills.map fun b => if b.paymentId = some paymentId then clearPayment b else b,
     payments := s.payments.filter fun p => !(p.id == paymentId) })

/-- The bill update `addPayment` issues for each allocated bill:
`{ status: PAID, paidDate: paymentData.date, paymentId: paymentRef.id }`. -/
def markPaid (d : SimpleDate) (pid : String) (b : Bill) : Bill :=
  { b with status := .PAID, paidDate := some d, paymentId := some pid }

/-- One iteration of the allocation loop of `addPayment`: the bill is
looked up in the snapshot `snapshot` of the bill list (`bills.find`); if
absent the entry is skipped (`console.warn` + `continue`), else the batch
updates the bill document with that id. -/
def payBillsStep (snapshot : List Bill) (d : SimpleDate) (pid : String)
    (bl : List Bill) (e : String × Int) : List Bill :=
  match snapshot.find? (fun b => b.id == e.1) with
  | none => bl
  | some _ => bl.map fun b => if b.id = e.1 then markPaid d pid b else b

/-- One iteration of the allocation loop of `addPayment` for the
accumulated `totalDueDifference`: a skipped entry leaves the accumulator
alone, a found bill contributes `bill.amount - paidAmount` exactly when
that difference is positive. -/
def shortfallStep (snapshot : List Bill) (acc : Int) (e : String × Int) : Int :=
  match snapshot.find? (fun b => b.id == e.1) with
  | none => acc
  | some b => if b.amount - e.2 > 0 then acc + (b.amount - e.2) else acc

/-- Embedding of `addPayment` (`src/contexts.tsx` lines 476-520): the batch records the
new payment (fresh id `newId`); the customer is read (`getDoc`) and its
absence aborts the whole batch ("Customer not found" is thrown and caught,
nothing commits).  For each entry of `billsToPay` present in the bill-list
snapshot, the bill is marked paid and, when `bill.amount - paidAmount > 0`,
that difference is accumulated; if the accumulated total is positive the
customer document's `openingDue` is set to `openingDue + total` (the
source's `customerSnap.data().openingDue || 0` is the identity on the
`Int`-valued model).  `billsToPay` is a `Record<string, number>`, modelled
as its list of key-value entries in iteration order. -/
def addPayment (pd : PaymentData) (newId : String) (billsToPay : List (String × Int))
    (s : DataState) : MutationResult × DataState :=
  match s.customers.find? (fun x => x.id == pd.customerId) with
  | none => (⟨false, some "Failed to add payment."⟩, s)
  | some customer =>
    let totalDueDifference : Int := billsToPay.foldl (shortfallStep s.bills) 0
    (⟨true, none⟩,
     { s with
       payments := s.payments ++ [⟨newId, pd.customerId, pd.amount, pd.date, pd.notes⟩],
       bills := billsToPay.foldl (payBillsStep s.bills pd.date newId) s.bills,
       customers :=
         if totalDueDifference > 0 then
           s.customers.map fun x =>
             if x.id = pd.customerId then { x with openingDue := customer.openingDue + totalDueDifference } else x
         else s.customers })

/-- Gregorian leap-year rule (as implemented by the JS `Date` object,
proleptic Gregorian). -/
def isLeapYear (y : Nat) : Bool :=
  (y % 4 == 0 && y % 100 != 0) || y % 400 == 0

/-- Number of days of a (1-based) month, i.e. `new Date(y, m, 0).getDate()`. -/
def daysInMonth (y m : Nat) : Nat :=
  if m = 2 then (if isLeapYear y then 29 else 28)
  else if m = 4 ∨ m = 6 ∨ m = 9 ∨ m = 11 then 30
  else 31

/-- Deterministic bill document id computed by the generator:
`` `${customer.id}-${year}-${month}` ``. -/
def mkBillId (customerId : String) (year month : Nat) : String :=
  customerId ++ "-" ++ toString year ++ "-" ++ toString month

/-- Linear index of a calendar month; the generator's loop condition
`loopDate.getFullYear() < currentYear || (loopDate.getFullYear() ===
currentYear && loopDate.getMonth() <= currentMonth)` is exactly
`monthIdx loop ≤ monthIdx current`, and `loopDate.setMonth(getMonth()+1)`
is `+1` on this index (with the same year rollover). -/
def monthIdx (year month : Nat) : Nat := year * 12 + (month - 1)

/-- The month indices visited by the generator's `while` loop, in order. -/
def monthRange (lo hi : Nat) : List Nat :=
  if lo ≤ hi then lo :: monthRange (lo + 1) hi else []
termination_by hi + 1 - lo
decreasing_by omega

/-- The bills the generator emits (as `batch.set` operations, in loop
order) for one customer: nothing unless `connectionStatus === ACTIVE` and
`startDate` is not after the current date; otherwise, for every month from
the start month through the current month whose deterministic id is not
already present in the bill-list snapshot, one new Unpaid bill with
`amount = customer.monthlyBill` and `dueDate = new Date(year, month, 0)`
(the last day of that month). -/
def genCustomerBills (bills : List Bill) (today : SimpleDate) (c : Customer) : List Bill :=
  if c.connectionStatus = .ACTIVE then
    if dateLt today c.startDate then []
    else
      (monthRange (monthIdx c.startDate.year c.startDate.month) (monthIdx today.year today.month)).filterMap
        fun i =>
          let year := i / 12
          let month := i % 12 + 1
          let billId := mkBillId c.id year month
          if bills.any (fun b => b.id == billId) then none
          else some { id := billId, customerId := c.id, amount := c.monthlyBill,
                      month := month, year := year, status := .UNPAID,
                      dueDate := ⟨year, month, daysInMonth year month⟩,
                      paidDate := none, paymentId := none, paidAmount := none }
  else []

/-- Embedding of `generateBills` (`src/contexts.tsx` lines 356-398): iterates the
customers, accumulating `batch.set` operations against the bill-list
snapshot `bills` captured at effect start, then commits.  Every emitted id
is absent from the snapshot, so each `set` creates a new document,
appended in batch order. -/
def generateBills (customers : List Customer) (bills : List Bill) (today : SimpleDate) : List Bill :=
  bills ++ customers.foldl (fun acc c => acc ++ genCustomerBills bills today c) []

/-- Ceiling integer division with positive divisor, the exact value of
`Math.ceil(a / b)` on integer inputs. -/
def ceilDiv (a b : Int) : Int := -((-a).ediv b)

/-- Derived state returned by the `useSubscriptionStatus` hook. -/
structure GateResult where
  status : String
  isSubscribed : Bool
  isPending : Bool
  trialDaysLeft : Int
  isTrialActive : Bool
  isLocked : Bool
deriving DecidableEq

/-- Normalization `user?.subscriptionStatus?.trim().toLowerCase() ||
'free_trial'` of the raw profile field (a missing user or field, or a
blank string, falls back to `'free_trial'`). -/
def normalizeStatus (rawStatus : Option String) : String :=
  match rawStatus with
  | none => "free_trial"
  | some raw => let t := raw.trim.toLower; if t = "" then "free_trial" else t

/-- Gate core of the `useSubscriptionStatus` hook (unnamed UI source,
lines 10-36), as a pure function of the normalized status string, the
trial end instant and the clock: `trialEndMs` is `user?.trialEndDate`
converted to epoch milliseconds (`null` when absent), `nowMs` is
`new Date().getTime()`.  `trialDaysLeft` is
`Math.max(0, Math.ceil(diffTime / (1000*60*60*24)))`. -/
def useSubscriptionStatusOf (status : String) (trialEndMs : Option Int) (nowMs : Int) : GateResult :=
  let isSubscribed := status == "active"
  let isPending := status == "pending"
  let trialDaysLeft : Int :=
    match trialEndMs with
    | none => 0
    | some endMs => max 0 (ceilDiv (endMs - nowMs) 86400000)
  let isTrialActive := status == "free_trial" && decide (trialDaysLeft > 0)
  let isLocked := !isSubscribed && !isTrialActive && !isPending
  ⟨status, isSubscribed, isPending, trialDaysLeft, isTrialActive, isLocked⟩

/-- Embedding of `useSubscriptionStatus` (unnamed UI source, lines 10-36):
the gate core applied to the normalized raw profile status. -/
def useSubscriptionStatus (rawStatus : Option String) (trialEndMs : Option Int)
    (nowMs : Int) : GateResult :=
  useSubscriptionStatusOf (normalizeStatus rawStatus) trialEndMs nowMs

/-! ### Shared helper lemmas -/

/-- Mapping a function that does not change the searched-for attribute
commutes with `find?`. -/
theorem find?_map_of_pred_eq {α : Type} (l : List α) (f : α → α) (p : α → Bool)
    (hp : ∀ x, p (f x) = p x) :
    (l.map f).find? p = (l.find? p).map f := by
  rw [List.find?_map]
  have hcomp : p ∘ f = p := funext hp
  rw [hcomp]

/-- Entries that a fold ignores can be filtered away without changing the
result. -/
theorem foldl_congr_filter {α β : Type} (l : List α) (g : β → α → β) (keep : α → Bool)
    (init : β) (h : ∀ acc e, keep e = false → g acc e = acc) :
    l.foldl g init = (l.filter keep).foldl g init := by
  induction l generalizing init with
  | nil => rfl
  | cons e es ih =>
    cases hk : keep e with
    | true => simp [List.filter_cons, hk, ih]
    | false => simp [List.filter_cons, hk, ih, h init e hk]

/-- Accumulating appends over a fold is appending the flattened image. -/
theorem foldl_append_eq_flatten {α β : Type} (l : List α) (f : α → List β) (init : List β) :
    l.foldl (fun acc c => acc ++ f c) init = init ++ (l.map f).flatten := by
  induction l generalizing init with
  | nil => simp
  | cons e es ih => simp [ih, List.append_assoc]

/-- Counting occurrences of a fixed key, conjoined with a side condition,
in a duplicate-free list. -/
theorem countP_beq_of_nodup (l : List Nat) (hl : l.Nodup) (k : Nat) (c : Nat → Bool) :
    (l.countP fun i => i == k && c i) = if k ∈ l ∧ c k = true then 1 else 0 := by
  induction l with
  | nil => simp
  | cons a as ih =>
    rw [List.nodup_cons] at hl
    obtain ⟨ha, has⟩ := hl
    rw [List.countP_cons, ih has]
    by_cases hak : a = k
    · subst hak
      have : ∀ i ∈ as, ¬(i == a && c i) = true := by
        intro i hi
        simp only [Bool.and_eq_true, beq_iff_eq, not_and]
        intro hia
        exact absurd (hia ▸ hi) ha
      have hz : (as.countP fun i => i == a && c i) = 0 := List.countP_eq_zero.mpr this
      by_cases hc : c a = true <;>
        simp [hz, hc, ha]
    · by_cases hk : k ∈ as ∧ c k = true <;>
        simp [hak, hk, Ne.symm hak, List.mem_cons]

/-- Unfolding of `monthRange` to `List.range'`. -/
theorem monthRange_eq_range' (lo hi : Nat) : monthRange lo hi = List.range' lo (hi + 1 - lo) := by
  generalize hgen : hi + 1 - lo = n
  induction n generalizing lo with
  | zero =>
    rw [monthRange, if_neg (by omega)]
    simp
  | succ k ih =>
    have hle : lo ≤ hi := by omega
    rw [monthRange, if_pos hle, List.range'_succ, ih (lo + 1) (by omega)]

theorem mem_monthRange {lo hi i : Nat} : i ∈ monthRange lo hi ↔ lo ≤ i ∧ i ≤ hi := by
  rw [monthRange_eq_range', List.mem_range']
  constructor
  · rintro ⟨j, hj, rfl⟩; omega
  · intro h; exact ⟨i - lo, by omega, by omega⟩

theorem nodup_monthRange (lo hi : Nat) : (monthRange lo hi).Nodup := by
  rw [monthRange_eq_range']
  exact List.nodup_range' lo (hi + 1 - lo)

/-! ### C7: failed due-ledger operations change nothing -/

/-- C7: each of `addDuePayment`, `updateDuePayment` and `deleteDuePayment`
returns a failure result when the target customer (or, for update and
delete, the original due payment, or its customer) cannot be found, and
every failure leaves the state completely unchanged, so no input ever
receives a partial update. -/
theorem dueLedger_failure_frame (pd : PaymentData) (newId : String) (up : DuePayment)
    (delId : String) (s : DataState) :
    ((s.customers.find? (fun c => c.id == pd.customerId) = none →
        addDuePayment pd newId s = (⟨false, some "Customer not found."⟩, s)) ∧
      ((addDuePayment pd newId s).1.success = false → (addDuePayment pd newId s).2 = s)) ∧
    ((s.duePayments.find? (fun p => p.id == up.id) = none ∨
        s.customers.find? (fun c => c.id == up.customerId) = none →
        updateDuePayment up s = (⟨false, some "Payment or customer not found."⟩, s)) ∧
      ((updateDuePayment up s).1.success = false → (updateDuePayment up s).2 = s)) ∧
    ((s.duePayments.find? (fun p => p.id == delId) = none ∨
        (∀ p, s.duePayments.find? (fun q => q.id == delId) = some p →
          s.customers.find? (fun c => c.id == p.customerId) = none) →
        deleteDuePayment delId s = (⟨false, some "Payment or customer not found."⟩, s)) ∧
      ((deleteDuePayment delId s).1.success = false → (deleteDuePayment delId s).2 = s)) := by
  refine ⟨⟨?_, ?_⟩, ⟨?_, ?_⟩, ⟨?_, ?_⟩⟩
  · intro h; simp [addDuePayment, h]
  · cases hc : s.customers.find? (fun c => c.id == pd.customerId) <;>
      simp [addDuePayment, hc]
  · intro h
    cases h1 : s.duePayments.find? (fun p => p.id == up.id) with
    | none => simp [updateDuePayment, h1]
    | some p =>
      cases h2 : s.customers.find? (fun c => c.id == up.customerId) with
      | none => simp [updateDuePayment, h1, h2]
      | some cc =>
        rcases h with h | h
        · rw [h1] at h; exact absurd h (by simp)
        · rw [h2] at h; exact absurd h (by simp)
  · cases h1 : s.duePayments.find? (fun p => p.id == up.id) <;>
      cases h2 : s.customers.find? (fun c => c.id == up.customerId) <;>
      simp [updateDuePayment, h1, h2]
  · intro h
    cases h1 : s.duePayments.find? (fun p => p.id == delId) with
    | none => simp [deleteDuePayment, h1]
    | some p =>
      rcases h with h | h
      · rw [h1] at h; exact absurd h (by simp)
      · have h2 := h p h1
        simp [deleteDuePayment, h1, h2]
  · cases h1 : s.duePayments.find? (fun p => p.id == delId) with
    | none => simp [deleteDuePayment, h1]
    | some p =>
      cases h2 : s.customers.find? (fun c => c.id == p.customerId) <;>
        simp [deleteDuePayment, h1, h2]

/-- Closed witness for `dueLedger_failure_frame` at a state with no
customers and no due payments: all three operations fail and leave the
state unchanged. -/
theorem dueLedger_failure_frame_witness :
    addDuePayment ⟨"c1", 5, ⟨2024, 1, 1⟩, none⟩ "d1" ⟨[], [], [], [], []⟩
        = (⟨false, some "Customer not found."⟩, ⟨[], [], [], [], []⟩) ∧
      updateDuePayment ⟨"d1", "c1", 7, ⟨2024, 1, 2⟩, none⟩ ⟨[], [], [], [], []⟩
        = (⟨false, some "Payment or customer not found."⟩, ⟨[], [], [], [], []⟩) ∧
      deleteDuePayment "d1" ⟨[], [], [], [], []⟩
        = (⟨false, some "Payment or customer not found."⟩, ⟨[], [], [], [], []⟩) :=
  ⟨(dueLedger_failure_frame ⟨"c1", 5, ⟨2024, 1, 1⟩, none⟩ "d1" ⟨"d1", "c1", 7, ⟨2024, 1, 2⟩, none⟩
      "d1" ⟨[], [], [], [], []⟩).1.1 (by decide),
    (dueLedger_failure_frame ⟨"c1", 5, ⟨2024, 1, 1⟩, none⟩ "d1" ⟨"d1", "c1", 7, ⟨2024, 1, 2⟩, none⟩
      "d1" ⟨[], [], [], [], []⟩).2.1.1 (Or.inl (by decide)),
    (dueLedger_failure_frame ⟨"c1", 5, ⟨2024, 1, 1⟩, none⟩ "d1" ⟨"d1", "c1", 7, ⟨2024, 1, 2⟩, none⟩
      "d1" ⟨[], [], [], [], []⟩).2.2.1 (Or.inl (by decide))⟩

/-! ### C9: case-insensitive uniqueness of area names -/

/-- C9: `addArea name` fails and creates no area whenever the name is
empty or equals an existing area's name case-insensitively; otherwise it
succeeds and appends exactly one new area with that name; consequently the
invariant that no two areas have the same lower-cased name is preserved. -/
theorem addArea_caseInsensitive (name newId : String) (s : DataState) :
    ((name = "" ∨ ∃ a ∈ s.areas, a.name.toLower = name.toLower) →
      (addArea name newId s).1.success = false ∧ (addArea name newId s).2 = s) ∧
    (name ≠ "" → (∀ a ∈ s.areas, a.name.toLower ≠ name.toLower) →
      (addArea name newId s).1.success = true ∧
      (addArea name newId s).2.areas = s.areas ++ [⟨newId, name⟩] ∧
      (addArea name newId s).2.customers = s.customers ∧
      (addArea name newId s).2.payments = s.payments ∧
      (addArea name newId s).2.duePayments = s.duePayments ∧
      (addArea name newId s).2.bills = s.bills) ∧
    ((s.areas.map fun a => a.name.toLower).Nodup →
      ((addArea name newId s).2.areas.map fun a => a.name.toLower).Nodup) := by
  refine ⟨?_, ?_, ?_⟩
  · intro h
    have hcond : name = "" ∨ (s.areas.any fun a => a.name.toLower == name.toLower) = true := by
      rcases h with h | ⟨a, ha, he⟩
      · exact Or.inl h
      · exact Or.inr (List.any_eq_true.mpr ⟨a, ha, by simp [he]⟩)
    simp only [addArea, if_pos hcond]
    simp
  · intro hne hall
    have hcond : ¬(name = "" ∨ (s.areas.any fun a => a.name.toLower == name.toLower) = true) := by
      rintro (h | h)
      · exact hne h
      · obtain ⟨a, ha, he⟩ := List.any_eq_true.mp h
        exact hall a ha (by simpa using he)
    simp only [addArea, if_neg hcond]
    simp
  · intro hnd
    by_cases hcond : name = "" ∨ (s.areas.any fun a => a.name.toLower == name.toLower) = true
    · simp only [addArea, if_pos hcond]
      exact hnd
    · simp only [addArea, if_neg hcond]
      push_neg at hcond
      obtain ⟨-, hany⟩ := hcond
      have hany2 : (s.areas.any fun a => a.name.toLower == name.toLower) = false :=
        Bool.eq_false_iff.mpr hany
      have hall := List.any_eq_false.mp hany2
      rw [List.map_append, List.nodup_append]
      refine ⟨hnd, List.nodup_singleton _, ?_⟩
      intro x hx hx2
      obtain ⟨a, ha, rfl⟩ := List.mem_map.mp hx
      have hne := hall a ha
      simp only [List.map_cons, List.map_nil, List.mem_singleton] at hx2
      exact hne (by simp [hx2])

/-- Closed witness for `addArea_caseInsensitive`: a name colliding with an
existing area's name is rejected with the state unchanged, and a name new
to an empty area list is appended. -/
theorem addArea_caseInsensitive_witness :
    ((addArea "North" "a1" ⟨[], [], [⟨"a0", "North"⟩], [], []⟩).1.success = false ∧
      (addArea "North" "a1" ⟨[], [], [⟨"a0", "North"⟩], [], []⟩).2
        = ⟨[], [], [⟨"a0", "North"⟩], [], []⟩) ∧
    (addArea "South" "a1" ⟨[], [], [], [], []⟩).2.areas = [⟨"a1", "South"⟩] :=
  ⟨(addArea_caseInsensitive "North" "a1" ⟨[], [], [⟨"a0", "North"⟩], [], []⟩).1
      (Or.inr ⟨⟨"a0", "North"⟩, by simp, rfl⟩),
    ((addArea_caseInsensitive "South" "a1" ⟨[], [], [], [], []⟩).2.1
      (by decide) (by simp)).2.1⟩

/-! ### C6: undoing a payment reverts bills and never touches openingDue -/

/-- C6: for every payment id, `deletePayment` succeeds, reverts every bill
whose `paymentId` references that id to `Unpaid` with `paidDate` and
`paymentId` cleared (all other bill fields and all other bills untouched),
removes the payment record with that id, and leaves the customers — in
particular every `openingDue` — as well as the due payments and areas
completely unchanged, even when the undone payment had increased
`openingDue` by a shortfall. -/
theorem deletePayment_spec (pid : String) (s : DataState) :
    (deletePayment pid s).1.success = true ∧
    (deletePayment pid s).2.customers = s.customers ∧
    (deletePayment pid s).2.duePayments = s.duePayments ∧
    (deletePayment pid s).2.areas = s.areas ∧
    (∀ p : Payment, p ∈ (deletePayment pid s).2.payments ↔ p ∈ s.payments ∧ p.id ≠ pid) ∧
    (deletePayment pid s).2.bills.length = s.bills.length ∧
    (∀ (i : Nat) (hi : i < s.bills.length) (hi2 : i < (deletePayment pid s).2.bills.length),
      ((s.bills[i]).paymentId = some pid →
        ((deletePayment pid s).2.bills[i]).status = BillStatus.UNPAID ∧
        ((deletePayment pid s).2.bills[i]).paidDate = none ∧
        ((deletePayment pid s).2.bills[i]).paymentId = none ∧
        ((deletePayment pid s).2.bills[i]).id = (s.bills[i]).id ∧
        ((deletePayment pid s).2.bills[i]).customerId = (s.bills[i]).customerId ∧
        ((deletePayment pid s).2.bills[i]).amount = (s.bills[i]).amount ∧
        ((deletePayment pid s).2.bills[i]).month = (s.bills[i]).month ∧
        ((deletePayment pid s).2.bills[i]).year = (s.bills[i]).year ∧
        ((deletePayment pid s).2.bills[i]).dueDate = (s.bills[i]).dueDate ∧
        ((deletePayment pid s).2.bills[i]).paidAmount = (s.bills[i]).paidAmount) ∧
      ((s.bills[i]).paymentId ≠ some pid →
        (deletePayment pid s).2.bills[i] = s.bills[i])) := by
  refine ⟨rfl, rfl, rfl, rfl, ?_, by simp [deletePayment], ?_⟩
  · intro p
    simp [deletePayment, List.mem_filter]
  · intro i hi hi2
    have hb : (deletePayment pid s).2.bills[i]
        = if (s.bills[i]).paymentId = some pid then clearPayment (s.bills[i]) else s.bills[i] := by
      simp [deletePayment]
    constructor
    · intro hp
      rw [hb, if_pos hp]
      exact ⟨rfl, rfl, rfl, rfl, rfl, rfl, rfl, rfl, rfl, rfl⟩
    · intro hp
      rw [hb, if_neg hp]

/-- Closed witness for `deletePayment_spec` at a concrete state whose bill
references the undone payment and whose customer carries an `openingDue`
produced by a shortfall: the customer list (hence `openingDue`) is
unchanged. -/
theorem deletePayment_spec_witness :
    (deletePayment "p1"
        ⟨[⟨"c1", "n", "ph", "ad", "ar", 500, .ACTIVE, ⟨2024, 1, 1⟩, 400, none⟩],
          [⟨"p1", "c1", 300, ⟨2024, 4, 1⟩, none⟩], [], [],
          [⟨"bA", "c1", 500, 1, 2024, .PAID, ⟨2024, 1, 31⟩, some ⟨2024, 4, 1⟩, some "p1", none⟩]⟩).2.customers
      = [⟨"c1", "n", "ph", "ad", "ar", 500, .ACTIVE, ⟨2024, 1, 1⟩, 400, none⟩] ∧
    (⟨"bA", "c1", 500, 1, 2024, .PAID, ⟨2024, 1, 31⟩, some ⟨2024, 4, 1⟩, some "p1", none⟩ : Bill).paymentId
      = some "p1" :=
  ⟨(deletePayment_spec "p1"
      ⟨[⟨"c1", "n", "ph", "ad", "ar", 500, .ACTIVE, ⟨2024, 1, 1⟩, 400, none⟩],
        [⟨"p1", "c1", 300, ⟨2024, 4, 1⟩, none⟩], [], [],
        [⟨"bA", "c1", 500, 1, 2024, .PAID, ⟨2024, 1, 31⟩, some ⟨2024, 4, 1⟩, some "p1", none⟩]⟩).2.1,
    by decide⟩

/-! ### C4: due-ledger linearity -/

/-- Setting `openingDue` on the customer document with a given id commutes
with looking a customer up by id. -/
theorem find?_customers_setDue (cs : List Customer) (cid tid : String) (v : Int) :
    (cs.map fun x => if x.id = tid then { x with openingDue := v } else x).find?
        (fun x => x.id == cid)
      = (cs.find? fun x => x.id == cid).map
          fun x => if x.id = tid then { x with openingDue := v } else x := by
  apply find?_map_of_pred_eq
  intro x
  by_cases h : x.id = tid <;> simp [h]

/-- Success-path unfolding of `addDuePayment`. -/
theorem addDuePayment_found (pd : PaymentData) (nid : String) (s : DataState) (c : Customer)
    (hc : s.customers.find? (fun x => x.id == pd.customerId) = some c) :
    addDuePayment pd nid s
      = (⟨true, none⟩,
         { s with
           duePayments := s.duePayments ++ [⟨nid, pd.customerId, pd.amount, pd.date, pd.notes⟩],
           customers := s.customers.map fun x =>
             if x.id = c.id then { x with openingDue := c.openingDue - pd.amount } else x }) := by
  simp [addDuePayment, hc]

/-- Success-path unfolding of `updateDuePayment`. -/
theorem updateDuePayment_found (up : DuePayment) (s : DataState) (orig : DuePayment) (c : Customer)
    (h1 : s.duePayments.find? (fun p => p.id == up.id) = some orig)
    (h2 : s.customers.find? (fun x => x.id == up.customerId) = some c) :
    updateDuePayment up s
      = (⟨true, none⟩,
         { s with
           duePayments := s.duePayments.map fun p => if p.id = up.id then up else p,
           customers := s.customers.map fun x =>
             if x.id = c.id then
               { x with openingDue := c.openingDue - (up.amount - orig.amount) }
             else x }) := by
  simp [updateDuePayment, h1, h2]

/-- Success-path unfolding of `deleteDuePayment`. -/
theorem deleteDuePayment_found (pid : String) (s : DataState) (p : DuePayment) (c : Customer)
    (h1 : s.duePayments.find? (fun q => q.id == pid) = some p)
    (h2 : s.customers.find? (fun x => x.id == p.customerId) = some c) :
    deleteDuePayment pid s
      = (⟨true, none⟩,
         { s with
           duePayments := s.duePayments.filter fun q => !(q.id == pid),
           customers := s.customers.map fun x =>
             if x.id = c.id then { x with openingDue := c.openingDue + p.amount } else x }) := by
  simp [deleteDuePayment, h1, h2]

/-- C4: the sequence `addDuePayment a1`, `updateDuePayment` of that due
payment to `a2`, `deleteDuePayment` of it, brings the customer's
`openingDue` back to exactly its initial value (and the due-payment list
back to the initial one); the intermediate values are `openingDue - a1`
after the add and `openingDue - a2` after the update. -/
theorem dueLedger_roundTrip (cid : String) (a1 a2 : Int) (d1 d2 : SimpleDate)
    (n1 n2 : Option String) (nid : String) (s : DataState) (c : Customer)
    (hc : s.customers.find? (fun x => x.id == cid) = some c)
    (hfresh : ∀ p ∈ s.duePayments, p.id ≠ nid) :
    (((addDuePayment ⟨cid, a1, d1, n1⟩ nid s).2.customers.find? fun x => x.id == cid).map
        Customer.openingDue = some (c.openingDue - a1)) ∧
    (((updateDuePayment ⟨nid, cid, a2, d2, n2⟩
            (addDuePayment ⟨cid, a1, d1, n1⟩ nid s).2).2.customers.find? fun x => x.id == cid).map
        Customer.openingDue = some (c.openingDue - a2)) ∧
    (((deleteDuePayment nid
            (updateDuePayment ⟨nid, cid, a2, d2, n2⟩
              (addDuePayment ⟨cid, a1, d1, n1⟩ nid s).2).2).2.customers.find? fun x => x.id == cid).map
        Customer.openingDue = some c.openingDue) ∧
    (deleteDuePayment nid
        (updateDuePayment ⟨nid, cid, a2, d2, n2⟩
          (addDuePayment ⟨cid, a1, d1, n1⟩ nid s).2).2).2.duePayments = s.duePayments := by
  have hcid : c.id = cid := by simpa using List.find?_some hc
  have e1 := addDuePayment_found ⟨cid, a1, d1, n1⟩ nid s c hc
  rw [e1]
  dsimp only
  have f1 : ((s.customers.map fun x =>
        if x.id = c.id then { x with openingDue := c.openingDue - a1 } else x).find?
          fun x => x.id == cid)
      = some { c with openingDue := c.openingDue - a1 } := by
    rw [find?_customers_setDue, hc]
    simp
  have f1d : ((s.duePayments ++ [(⟨nid, cid, a1, d1, n1⟩ : DuePayment)]).find?
        fun p => p.id == nid)
      = some (⟨nid, cid, a1, d1, n1⟩ : DuePayment) := by
    rw [List.find?_append, List.find?_eq_none.mpr (by intro p hp; simpa using hfresh p hp)]
    simp
  have e2 := updateDuePayment_found ⟨nid, cid, a2, d2, n2⟩
      { s with
        duePayments := s.duePayments ++ [(⟨nid, cid, a1, d1, n1⟩ : DuePayment)],
        customers := s.customers.map fun x =>
          if x.id = c.id then { x with openingDue := c.openingDue - a1 } else x }
      ⟨nid, cid, a1, d1, n1⟩ { c with openingDue := c.openingDue - a1 } f1d f1
  rw [e2]
  dsimp only
  have f2 : (((s.customers.map fun x =>
          if x.id = c.id then { x with openingDue := c.openingDue - a1 } else x).map fun x =>
            if x.id = c.id then { x with openingDue := c.openingDue - a1 - (a2 - a1) } else x).find?
          fun x => x.id == cid)
      = some { c with openingDue := c.openingDue - a1 - (a2 - a1) } := by
    rw [find?_customers_setDue, find?_customers_setDue, hc]
    simp
  have hdup : ((s.duePayments ++ [(⟨nid, cid, a1, d1, n1⟩ : DuePayment)]).map fun p =>
        if p.id = nid then (⟨nid, cid, a2, d2, n2⟩ : DuePayment) else p)
      = s.duePayments ++ [(⟨nid, cid, a2, d2, n2⟩ : DuePayment)] := by
    rw [List.map_append]
    congr 1
    · calc s.duePayments.map (fun p =>
            if p.id = nid then (⟨nid, cid, a2, d2, n2⟩ : DuePayment) else p)
          = s.duePayments.map id := List.map_congr_left fun p hp => if_neg (hfresh p hp)
        _ = s.duePayments := List.map_id _
    · simp
  rw [hdup]
  have f2d : ((s.duePayments ++ [(⟨nid, cid, a2, d2, n2⟩ : DuePayment)]).find?
        fun p => p.id == nid)
      = some (⟨nid, cid, a2, d2, n2⟩ : DuePayment) := by
    rw [List.find?_append, List.find?_eq_none.mpr (by intro p hp; simpa using hfresh p hp)]
    simp
  have e3 := deleteDuePayment_found nid
      { s with
        duePayments := s.duePayments ++ [(⟨nid, cid, a2, d2, n2⟩ : DuePayment)],
        customers := (s.customers.map fun x =>
            if x.id = c.id then { x with openingDue := c.openingDue - a1 } else x).map fun x =>
              if x.id = c.id then { x with openingDue := c.openingDue - a1 - (a2 - a1) } else x }
      ⟨nid, cid, a2, d2, n2⟩ { c with openingDue := c.openingDue - a1 - (a2 - a1) } f2d f2
  rw [e3]
  dsimp only
  have f3 : ((((s.customers.map fun x =>
            if x.id = c.id then { x with openingDue := c.openingDue - a1 } else x).map fun x =>
              if x.id = c.id then { x with openingDue := c.openingDue - a1 - (a2 - a1) } else x).map
            fun x =>
              if x.id = c.id then
                { x with openingDue := c.openingDue - a1 - (a2 - a1) + a2 } else x).find?
          fun x => x.id == cid)
      = some { c with openingDue := c.openingDue - a1 - (a2 - a1) + a2 } := by
    rw [find?_customers_setDue, find?_customers_setDue, find?_customers_setDue, hc]
    simp
  refine ⟨?_, ?_, ?_, ?_⟩
  · rw [f1]
    rfl
  · rw [f2]
    simp only [Option.map_some', Option.some.injEq]
    ring
  · rw [f3]
    simp only [Option.map_some', Option.some.injEq]
    ring
  · rw [List.filter_append, List.filter_eq_self.mpr (by intro p hp; simpa using hfresh p hp)]
    simp

/-! ### C1 and C10: shortfall accounting and skipped allocations in `addPayment` -/

theorem shortfallStep_none (snap : List Bill) (acc : Int) (e : String × Int)
    (h : snap.find? (fun b => b.id == e.1) = none) : shortfallStep snap acc e = acc := by
  simp [shortfallStep, h]

theorem shortfallStep_some (snap : List Bill) (acc : Int) (e : String × Int) (b : Bill)
    (h : snap.find? (fun b2 => b2.id == e.1) = some b) :
    shortfallStep snap acc e = if b.amount - e.2 > 0 then acc + (b.amount - e.2) else acc := by
  simp [shortfallStep, h]

theorem payBillsStep_none (snap : List Bill) (d : SimpleDate) (pid : String) (bl : List Bill)
    (e : String × Int) (h : snap.find? (fun b => b.id == e.1) = none) :
    payBillsStep snap d pid bl e = bl := by
  simp [payBillsStep, h]

theorem payBillsStep_some (snap : List Bill) (d : SimpleDate) (pid : String) (bl : List Bill)
    (e : String × Int) (b : Bill) (h : snap.find? (fun b2 => b2.id == e.1) = some b) :
    payBillsStep snap d pid bl e
      = bl.map fun b2 => if b2.id = e.1 then markPaid d pid b2 else b2 := by
  simp [payBillsStep, h]

/-- Success-path unfolding of `addPayment`. -/
theorem addPayment_found (pd : PaymentData) (nid : String) (btp : List (String × Int))
    (s : DataState) (c : Customer)
    (hc : s.customers.find? (fun x => x.id == pd.customerId) = some c) :
    addPayment pd nid btp s
      = (⟨true, none⟩,
         { s with
           payments := s.payments ++ [⟨nid, pd.customerId, pd.amount, pd.date, pd.notes⟩],
           bills := btp.foldl (payBillsStep s.bills pd.date nid) s.bills,
           customers :=
             if btp.foldl (shortfallStep s.bills) 0 > 0 then
               s.customers.map fun x =>
                 if x.id = pd.customerId then
                   { x with openingDue := c.openingDue + btp.foldl (shortfallStep s.bills) 0 }
                 else x
             else s.customers }) := by
  simp [addPayment, hc]

/-- The accumulated `totalDueDifference` of `addPayment` is the sum of
`max 0 (bill.amount - paidAmount)` over the allocations whose bill is
present. -/
theorem foldl_shortfallStep (btp : List (String × Int)) (bills : List Bill)
    (f : String × Int → Bill)
    (hf : ∀ e ∈ btp, bills.find? (fun b => b.id == e.1) = some (f e)) (init : Int) :
    btp.foldl (shortfallStep bills) init
      = init + (btp.map fun e => max 0 ((f e).amount - e.2)).sum := by
  induction btp generalizing init with
  | nil => simp
  | cons e es ih =>
    rw [List.foldl_cons, shortfallStep_some bills init e (f e) (hf e (List.mem_cons_self e es)),
      ih (fun e2 he2 => hf e2 (List.mem_cons_of_mem e he2))]
    simp only [List.map_cons, List.sum_cons]
    rcases lt_or_le 0 ((f e).amount - e.2) with h | h
    · rw [if_pos h, max_eq_right h.le]
      ring
    · rw [if_neg (not_lt.mpr h), max_eq_left h]
      ring

/-- C1: applying a payment to an existing customer with allocations over
bills present in the bill list succeeds and sets the customer's
`openingDue` to its previous value plus the sum of
`max 0 (bill.amount - amountApplied)` over the allocated bills (hence when
every allocation equals its bill's amount the `openingDue` is unchanged). -/
theorem addPayment_openingDue (pd : PaymentData) (newId : String)
    (btp : List (String × Int)) (s : DataState) (c : Customer) (f : String × Int → Bill)
    (hc : s.customers.find? (fun x => x.id == pd.customerId) = some c)
    (hf : ∀ e ∈ btp, s.bills.find? (fun b => b.id == e.1) = some (f e)) :
    (addPayment pd newId btp s).1.success = true ∧
    (((addPayment pd newId btp s).2.customers.find? fun x => x.id == pd.customerId).map
        Customer.openingDue
      = some (c.openingDue + (btp.map fun e => max 0 ((f e).amount - e.2)).sum)) := by
  have hcid : c.id = pd.customerId := by simpa using List.find?_some hc
  have hS : (0 : Int) ≤ (btp.map fun e => max 0 ((f e).amount - e.2)).sum := by
    apply List.sum_nonneg
    intro x hx
    obtain ⟨e, he, rfl⟩ := List.mem_map.mp hx
    exact le_max_left 0 _
  simp only [addPayment, hc]
  refine ⟨by trivial, ?_⟩
  dsimp only
  rw [foldl_shortfallStep btp s.bills f hf 0, zero_add]
  by_cases hpos : ((btp.map fun e => max 0 ((f e).amount - e.2)).sum) > 0
  · rw [if_pos hpos, find?_customers_setDue, hc]
    simp [hcid]
  · rw [if_neg hpos, hc]
    have h0 : (btp.map fun e => max 0 ((f e).amount - e.2)).sum = 0 :=
      le_antisymm (not_lt.mp hpos) hS
    rw [h0]
    simp

/-- Concrete state for the C1 witness: one customer with `openingDue = 200`
and one unpaid bill of amount 500. -/
def c1State : DataState :=
  ⟨[⟨"c1", "n", "ph", "ad", "ar", 500, .ACTIVE, ⟨2024, 1, 1⟩, 200, none⟩], [], [], [],
    [⟨"bA", "c1", 500, 1, 2024, .UNPAID, ⟨2024, 1, 31⟩, none, none, none⟩]⟩

/-- Closed witness for `addPayment_openingDue`, the concrete scenario of
the specification: allocating 300 against a 500 bill moves `openingDue`
from 200 to 400. -/
theorem addPayment_openingDue_witness :
    (addPayment ⟨"c1", 300, ⟨2024, 4, 1⟩, none⟩ "p1" [("bA", 300)] c1State).1.success = true ∧
    (((addPayment ⟨"c1", 300, ⟨2024, 4, 1⟩, none⟩ "p1" [("bA", 300)] c1State).2.customers.find?
        fun x => x.id == "c1").map Customer.openingDue = some 400) := by
  have h := addPayment_openingDue ⟨"c1", 300, ⟨2024, 4, 1⟩, none⟩ "p1" [("bA", 300)] c1State
    ⟨"c1", "n", "ph", "ad", "ar", 500, .ACTIVE, ⟨2024, 1, 1⟩, 200, none⟩
    (fun _ => ⟨"bA", "c1", 500, 1, 2024, .UNPAID, ⟨2024, 1, 31⟩, none, none, none⟩)
    (by decide) (by decide)
  exact ⟨h.1, h.2.trans (by decide)⟩

/-- C10: allocation entries whose bill id does not occur in the bill list
are skipped silently — `addPayment` behaves exactly as if those entries
were absent — and the call still succeeds whenever the customer exists. -/
theorem addPayment_skips_unknown (pd : PaymentData) (newId : String)
    (btp : List (String × Int)) (s : DataState) :
    addPayment pd newId btp s
      = addPayment pd newId (btp.filter fun e => s.bills.any fun b => b.id == e.1) s ∧
    ((s.customers.find? fun x => x.id == pd.customerId).isSome →
      (addPayment pd newId btp s).1.success = true) := by
  have hkeep : ∀ e : String × Int, (s.bills.any fun b => b.id == e.1) = false →
      s.bills.find? (fun b => b.id == e.1) = none := fun e he =>
    List.find?_eq_none.mpr (List.any_eq_false.mp he)
  constructor
  · cases hc : s.customers.find? (fun x => x.id == pd.customerId) with
    | none => simp [addPayment, hc]
    | some c =>
      simp only [addPayment, hc]
      rw [foldl_congr_filter btp (shortfallStep s.bills)
          (fun e => s.bills.any fun b => b.id == e.1) 0
          (fun acc e he => shortfallStep_none s.bills acc e (hkeep e he)),
        foldl_congr_filter btp (payBillsStep s.bills pd.date newId)
          (fun e => s.bills.any fun b => b.id == e.1) s.bills
          (fun acc e he => payBillsStep_none s.bills pd.date newId acc e (hkeep e he))]
  · intro hsome
    obtain ⟨c, hc⟩ := Option.isSome_iff_exists.mp hsome
    simp [addPayment, hc]

/-- Closed witness for `addPayment_skips_unknown`: an allocation against a
bill id absent from the bill list is dropped and the call succeeds. -/
theorem addPayment_skips_unknown_witness :
    addPayment ⟨"c1", 300, ⟨2024, 4, 1⟩, none⟩ "p1" [("bogus", 300)] c1State
      = addPayment ⟨"c1", 300, ⟨2024, 4, 1⟩, none⟩ "p1"
          (([("bogus", 300)] : List (String × Int)).filter
            fun e => c1State.bills.any fun b => b.id == e.1) c1State ∧
    (addPayment ⟨"c1", 300, ⟨2024, 4, 1⟩, none⟩ "p1" [("bogus", 300)] c1State).1.success = true :=
  ⟨(addPayment_skips_unknown ⟨"c1", 300, ⟨2024, 4, 1⟩, none⟩ "p1" [("bogus", 300)] c1State).1,
    (addPayment_skips_unknown ⟨"c1", 300, ⟨2024, 4, 1⟩, none⟩ "p1" [("bogus", 300)] c1State).2
      (by decide)⟩

/-! ### C5: undo followed by re-apply -/

/-- The allocation loop of `addPayment` marks exactly the bills whose id
occurs in an allocation entry present in the snapshot. -/
theorem foldl_payBillsStep (snap : List Bill) (d : SimpleDate) (pid : String)
    (btp : List (String × Int)) (bl : List Bill) :
    btp.foldl (payBillsStep snap d pid) bl
      = bl.map fun b =>
          if btp.any (fun e => e.1 == b.id && (snap.find? fun b2 => b2.id == e.1).isSome)
          then markPaid d pid b else b := by
  induction btp generalizing bl with
  | nil => simp
  | cons e es ih =>
    rw [List.foldl_cons]
    cases hfind : snap.find? (fun b2 => b2.id == e.1) with
    | none =>
      rw [payBillsStep_none snap d pid bl e hfind, ih]
      congr 1
      funext b
      rw [List.any_cons, hfind]
      simp only [Option.isSome_none, Bool.and_false, Bool.false_or]
    | some w =>
      rw [payBillsStep_some snap d pid bl e w hfind, ih, List.map_map]
      congr 1
      funext b
      rw [List.any_cons, hfind]
      simp only [Function.comp_apply, Option.isSome_some, Bool.and_true]
      by_cases hb : b.id = e.1
      · have hbeq : (e.1 == b.id) = true := by simp [hb]
        rw [if_pos hb, hbeq, Bool.true_or]
        simp only [markPaid, eq_self_iff_true, if_true]
        by_cases h2 : (es.any fun e2 =>
            e2.1 == b.id && (snap.find? fun b2 => b2.id == e2.1).isSome) = true
        · rw [if_pos h2]
        · rw [if_neg h2]
      · have hbeq : (e.1 == b.id) = false := by simp [Ne.symm hb]
        rw [if_neg hb, hbeq, Bool.false_or]

/-- Bills are looked up by id only, and every write of the reconciler
preserves bill ids, so presence of an allocation's bill in the snapshot is
invariant under those writes. -/
theorem find?_isSome_map_bill (l : List Bill) (g : Bill → Bill)
    (hg : ∀ b, (g b).id = b.id) (k : String) :
    ((l.map g).find? fun b => b.id == k).isSome = (l.find? fun b => b.id == k).isSome := by
  rw [find?_map_of_pred_eq l g _ (fun b => by rw [hg])]
  cases l.find? fun b => b.id == k <;> rfl

set_option maxHeartbeats 1000000 in
/-- C5 (amended): after `addPayment` with fresh payment id `p`, undoing it
with `deletePayment p` and re-applying the same allocations at the same
date with fresh id `pNew` reproduces every bill exactly up to the
`paymentId` back-reference, which now names the re-applied payment: bills
are identical in id, status and `paidDate`, and are fully identical
exactly when the fresh id of the re-applied payment coincides with `p`. -/
theorem undo_reapply_bills (pd : PaymentData) (p pNew : String)
    (btp : List (String × Int)) (s : DataState) (c : Customer)
    (hc : s.customers.find? (fun x => x.id == pd.customerId) = some c)
    (hfresh : ∀ b ∈ s.bills, b.paymentId ≠ some p) :
    ((addPayment pd pNew btp (deletePayment p (addPayment pd p btp s).2).2).2.bills
      = (addPayment pd p btp s).2.bills.map
          fun b => if b.paymentId = some p then { b with paymentId := some pNew } else b) ∧
    (pNew = p →
      (addPayment pd pNew btp (deletePayment p (addPayment pd p btp s).2).2).2.bills
        = (addPayment pd p btp s).2.bills) := by
  have hS1 : (addPayment pd p btp s).2.bills
      = s.bills.map fun b =>
          if btp.any (fun e => e.1 == b.id && (s.bills.find? fun b2 => b2.id == e.1).isSome)
          then markPaid pd.date p b else b := by
    simp only [addPayment_found pd p btp s c hc]
    exact foldl_payBillsStep s.bills pd.date p btp s.bills
  have hd1 : (deletePayment p (addPayment pd p btp s).2).2.bills
      = (addPayment pd p btp s).2.bills.map
          fun b => if b.paymentId = some p then clearPayment b else b := rfl
  have hS2b : (deletePayment p (addPayment pd p btp s).2).2.bills
      = s.bills.map
          ((fun b => if b.paymentId = some p then clearPayment b else b) ∘ fun b =>
            if btp.any (fun e => e.1 == b.id && (s.bills.find? fun b2 => b2.id == e.1).isSome)
            then markPaid pd.date p b else b) := by
    rw [hd1, hS1, List.map_map]
  have hidRF : ∀ b : Bill,
      (((fun b => if b.paymentId = some p then clearPayment b else b) ∘ fun b =>
          if btp.any (fun e => e.1 == b.id && (s.bills.find? fun b2 => b2.id == e.1).isSome)
          then markPaid pd.date p b else b) b).id = b.id := by
    intro b
    simp only [Function.comp_apply]
    by_cases h1 : (btp.any fun e => e.1 == b.id && (s.bills.find? fun b2 => b2.id == e.1).isSome)
        = true
    · rw [if_pos h1, if_pos (show (markPaid pd.date p b).paymentId = some p from rfl)]
      rfl
    · rw [if_neg h1]
      by_cases h2 : b.paymentId = some p
      · rw [if_pos h2]
        rfl
      · rw [if_neg h2]
  have hcust : (deletePayment p (addPayment pd p btp s).2).2.customers
      = (addPayment pd p btp s).2.customers := rfl
  have hcust2 : ∃ c2, ((deletePayment p (addPayment pd p btp s).2).2.customers.find?
      fun x => x.id == pd.customerId) = some c2 := by
    rw [hcust]
    simp only [addPayment_found pd p btp s c hc]
    by_cases hpos : btp.foldl (shortfallStep s.bills) 0 > 0
    · rw [if_pos hpos, find?_customers_setDue, hc]
      exact ⟨_, rfl⟩
    · rw [if_neg hpos]
      exact ⟨c, hc⟩
  obtain ⟨c2, hc2⟩ := hcust2
  have hS3 : (addPayment pd pNew btp (deletePayment p (addPayment pd p btp s).2).2).2.bills
      = (deletePayment p (addPayment pd p btp s).2).2.bills.map fun b =>
          if btp.any (fun e => e.1 == b.id &&
              ((deletePayment p (addPayment pd p btp s).2).2.bills.find?
                fun b2 => b2.id == e.1).isSome)
          then markPaid pd.date pNew b else b := by
    simp only [addPayment_found pd pNew btp _ c2 hc2]
    exact foldl_payBillsStep _ pd.date pNew btp _
  have hfmb : ∀ k : String,
      (((deletePayment p (addPayment pd p btp s).2).2.bills.find? fun b2 => b2.id == k).isSome)
        = ((s.bills.find? fun b2 => b2.id == k).isSome) := by
    intro k
    rw [hS2b]
    exact find?_isSome_map_bill s.bills _ hidRF k
  have hmain : (addPayment pd pNew btp (deletePayment p (addPayment pd p btp s).2).2).2.bills
      = (addPayment pd p btp s).2.bills.map
          fun b => if b.paymentId = some p then { b with paymentId := some pNew } else b := by
    rw [hS3]
    simp only [hfmb]
    rw [hS2b, hS1, List.map_map, List.map_map]
    apply List.map_congr_left
    intro b hb
    simp only [Function.comp_apply]
    by_cases hA : (btp.any fun e => e.1 == b.id && (s.bills.find? fun b2 => b2.id == e.1).isSome)
        = true
    · rw [if_pos hA]
      rw [if_pos (show (markPaid pd.date p b).paymentId = some p from rfl)]
      rw [show (clearPayment (markPaid pd.date p b)).id = b.id from rfl]
      rw [if_pos hA]
      rw [if_pos (show (markPaid pd.date p b).paymentId = some p from rfl)]
      cases b
      simp [markPaid, clearPayment]
    · rw [if_neg hA]
      rw [if_neg (hfresh b hb)]
      rw [if_neg hA]
      rw [if_neg (hfresh b hb)]
  refine ⟨hmain, fun hpp => ?_⟩
  rw [hmain, hpp]
  generalize (addPayment pd p btp s).2.bills = L
  have hpt : ∀ b ∈ L, (if b.paymentId = some p then { b with paymentId := some p } else b) = b := by
    intro b _
    by_cases h : b.paymentId = some p
    · rw [if_pos h, ← h]
    · rw [if_neg h]
  calc (L.map fun b => if b.paymentId = some p then { b with paymentId := some p } else b)
      = L.map id := List.map_congr_left hpt
    _ = L := List.map_id L

/-- Concrete state for the C5 counterexample and witness: one customer and
one unpaid bill of amount 500. -/
def c5State : DataState :=
  ⟨[⟨"c1", "n", "ph", "ad", "ar", 500, .ACTIVE, ⟨2024, 1, 1⟩, 0, none⟩], [], [], [],
    [⟨"bA", "c1", 500, 1, 2024, .UNPAID, ⟨2024, 1, 31⟩, none, none, none⟩]⟩

/-- Counterexample to C5 as stated: undoing payment `p1` and re-applying
the same allocation at the same date under the fresh id `p2` does NOT
reproduce the same `paymentId` on the affected bill — it now references
`p2` instead of `p1`. -/
theorem undo_reapply_counterexample :
    ¬ ((addPayment ⟨"c1", 500, ⟨2024, 4, 1⟩, none⟩ "p2" [("bA", 500)]
          (deletePayment "p1"
            (addPayment ⟨"c1", 500, ⟨2024, 4, 1⟩, none⟩ "p1" [("bA", 500)] c5State).2).2).2.bills.map
        Bill.paymentId
      = ((addPayment ⟨"c1", 500, ⟨2024, 4, 1⟩, none⟩ "p1" [("bA", 500)] c5State).2.bills.map
          Bill.paymentId)) := by decide

/-- Closed witness for `undo_reapply_bills` at the concrete undo/redo
scenario. -/
theorem undo_reapply_bills_witness :
    ((c5State.customers.find? fun x => x.id == "c1")
        = some ⟨"c1", "n", "ph", "ad", "ar", 500, .ACTIVE, ⟨2024, 1, 1⟩, 0, none⟩) ∧
    ((addPayment ⟨"c1", 500, ⟨2024, 4, 1⟩, none⟩ "p2" [("bA", 500)]
        (deletePayment "p1"
          (addPayment ⟨"c1", 500, ⟨2024, 4, 1⟩, none⟩ "p1" [("bA", 500)] c5State).2).2).2.bills
      = (addPayment ⟨"c1", 500, ⟨2024, 4, 1⟩, none⟩ "p1" [("bA", 500)] c5State).2.bills.map
          fun b => if b.paymentId = some "p1" then { b with paymentId := some "p2" } else b) :=
  ⟨by decide,
    (undo_reapply_bills ⟨"c1", 500, ⟨2024, 4, 1⟩, none⟩ "p1" "p2" [("bA", 500)] c5State
      ⟨"c1", "n", "ph", "ad", "ar", 500, .ACTIVE, ⟨2024, 1, 1⟩, 0, none⟩ (by decide)
      (by decide)).1⟩

/-- Concrete state for the C4 witness: one customer with
`openingDue = 400`. -/
def c4Customer : Customer := ⟨"c1", "n", "ph", "ad", "ar", 500, .ACTIVE, ⟨2024, 1, 1⟩, 400, none⟩

/-- Concrete state for the C4 witness. -/
def c4State : DataState := ⟨[c4Customer], [], [], [], []⟩

/-- Closed witness for `dueLedgerRoundTrip`, the concrete scenario of the
specification: 400 → 250 → 300 → 400. -/
theorem dueLedger_roundTrip_witness :
    (((addDuePayment ⟨"c1", 150, ⟨2024, 1, 5⟩, none⟩ "d1" c4State).2.customers.find?
        fun x => x.id == "c1").map Customer.openingDue = some 250) ∧
    (((updateDuePayment ⟨"d1", "c1", 100, ⟨2024, 1, 6⟩, none⟩
          (addDuePayment ⟨"c1", 150, ⟨2024, 1, 5⟩, none⟩ "d1" c4State).2).2.customers.find?
        fun x => x.id == "c1").map Customer.openingDue = some 300) ∧
    (((deleteDuePayment "d1"
          (updateDuePayment ⟨"d1", "c1", 100, ⟨2024, 1, 6⟩, none⟩
            (addDuePayment ⟨"c1", 150, ⟨2024, 1, 5⟩, none⟩ "d1" c4State).2).2).2.customers.find?
        fun x => x.id == "c1").map Customer.openingDue = some 400) := by
  have h := dueLedger_roundTrip "c1" 150 100 ⟨2024, 1, 5⟩ ⟨2024, 1, 6⟩ none none "d1" c4State
    c4Customer (by decide) (by decide)
  exact ⟨h.1.trans (by decide), h.2.1.trans (by decide), h.2.2.1.trans (by decide)⟩

/-! ### C2: generation boundary -/

/-- Bills emitted for one customer by the generator carry the customer's
id and monthly amount, status Unpaid, 1-based month, the last day of their
month as due date, the deterministic bill id, a key not already present in
the snapshot, and a month index between the start month and the current
month. -/
theorem mem_genCustomerBills {bills : List Bill} {today : SimpleDate} {c : Customer} {b : Bill}
    (hb : b ∈ genCustomerBills bills today c) :
    b.customerId = c.id ∧ b.amount = c.monthlyBill ∧ b.status = BillStatus.UNPAID ∧
    1 ≤ b.month ∧ b.month ≤ 12 ∧
    b.dueDate = ⟨b.year, b.month, daysInMonth b.year b.month⟩ ∧
    b.id = mkBillId c.id b.year b.month ∧
    (bills.any fun x => x.id == b.id) = false ∧
    monthIdx c.startDate.year c.startDate.month ≤ monthIdx b.year b.month ∧
    monthIdx b.year b.month ≤ monthIdx today.year today.month := by
  unfold genCustomerBills at hb
  by_cases h1 : c.connectionStatus = ConnectionStatus.ACTIVE
  case neg =>
    rw [if_neg h1] at hb
    exact absurd hb (List.not_mem_nil b)
  rw [if_pos h1] at hb
  by_cases h2 : dateLt today c.startDate = true
  case pos =>
    rw [if_pos h2] at hb
    exact absurd hb (List.not_mem_nil b)
  rw [if_neg h2] at hb
  obtain ⟨i, hi, hfi⟩ := List.mem_filterMap.mp hb
  obtain ⟨hlo, hhi⟩ := mem_monthRange.mp hi
  by_cases h3 : (bills.any fun x => x.id == mkBillId c.id (i / 12) (i % 12 + 1)) = true
  · rw [if_pos h3] at hfi
    exact absurd hfi (Option.noConfusion)
  · rw [if_neg h3] at hfi
    obtain rfl := (Option.some.inj hfi).symm
    refine ⟨rfl, rfl, rfl, ?_, ?_, rfl, rfl, Bool.eq_false_iff.mpr h3, ?_, ?_⟩
    · show 1 ≤ i % 12 + 1
      omega
    · show i % 12 + 1 ≤ 12
      omega
    · show monthIdx c.startDate.year c.startDate.month ≤ monthIdx (i / 12) (i % 12 + 1)
      simp only [monthIdx] at hlo ⊢
      omega
    · show monthIdx (i / 12) (i % 12 + 1) ≤ monthIdx today.year today.month
      simp only [monthIdx] at hhi ⊢
      omega

/-- The batch committed by the generator is the snapshot followed by the
per-customer emissions in customer order. -/
theorem generateBills_eq (customers : List Customer) (bills : List Bill) (today : SimpleDate) :
    generateBills customers bills today
      = bills ++ (customers.map (genCustomerBills bills today)).flatten := by
  unfold generateBills
  rw [foldl_append_eq_flatten]
  rfl

/-- C2: the generator emits, per Active customer whose start date is not
in the future, exactly one bill for each calendar month from the start
month through the current month whose deterministic key is not already
taken — with the customer's monthly amount, status Unpaid and the last day
of the month as due date — and emits nothing for a Paused or Inactive
customer or one whose start date lies in the future; the overall
`generateBills` output is the input bills followed by these per-customer
emissions. -/
theorem generateBills_boundary (customers : List Customer) (bills : List Bill)
    (today : SimpleDate) (c : Customer) :
    (generateBills customers bills today
      = bills ++ (customers.map (genCustomerBills bills today)).flatten) ∧
    (c.connectionStatus ≠ ConnectionStatus.ACTIVE → genCustomerBills bills today c = []) ∧
    (dateLt today c.startDate = true → genCustomerBills bills today c = []) ∧
    (∀ b ∈ genCustomerBills bills today c,
      b.customerId = c.id ∧ b.amount = c.monthlyBill ∧ b.status = BillStatus.UNPAID ∧
        b.dueDate = ⟨b.year, b.month, daysInMonth b.year b.month⟩ ∧
        b.id = mkBillId c.id b.year b.month) ∧
    (c.connectionStatus = ConnectionStatus.ACTIVE → dateLt today c.startDate = false →
      ∀ y m : Nat, 1 ≤ m → m ≤ 12 →
        (genCustomerBills bills today c).countP (fun b => b.year == y && b.month == m)
          = if monthIdx c.startDate.year c.startDate.month ≤ monthIdx y m
                ∧ monthIdx y m ≤ monthIdx today.year today.month
                ∧ ∀ b ∈ bills, b.id ≠ mkBillId c.id y m
            then 1 else 0) := by
  refine ⟨?_, ?_, ?_, ?_, ?_⟩
  · exact generateBills_eq customers bills today
  · intro h
    unfold genCustomerBills
    rw [if_neg h]
  · intro h
    unfold genCustomerBills
    by_cases h1 : c.connectionStatus = ConnectionStatus.ACTIVE
    · rw [if_pos h1, if_pos h]
    · rw [if_neg h1]
  · intro b hb
    obtain ⟨f1, f2, f3, -, -, f6, f7, -, -, -⟩ := mem_genCustomerBills hb
    exact ⟨f1, f2, f3, f6, f7⟩
  · intro h1 h2 y m hm1 hm2
    unfold genCustomerBills
    rw [if_pos h1, if_neg (by rw [h2]; exact Bool.false_ne_true)]
    rw [List.countP_filterMap]
    rw [List.countP_congr (q := fun i =>
        (i == monthIdx y m) &&
          !(bills.any fun x => x.id == mkBillId c.id (i / 12) (i % 12 + 1)))]
    · rw [countP_beq_of_nodup _ (nodup_monthRange _ _) (monthIdx y m)]
      refine if_congr ?_ rfl rfl
      constructor
      · rintro ⟨hmem, hc⟩
        obtain ⟨hlo, hhi⟩ := mem_monthRange.mp hmem
        have hdiv : monthIdx y m / 12 = y ∧ monthIdx y m % 12 + 1 = m := by
          simp only [monthIdx]
          omega
        rw [hdiv.1, hdiv.2] at hc
        refine ⟨hlo, hhi, ?_⟩
        intro b hbmem hbid
        have hall : ∀ x ∈ bills, ¬x.id = mkBillId c.id y m := by simpa using hc
        exact absurd hbid (hall b hbmem)
      · rintro ⟨hlo, hhi, hfree⟩
        refine ⟨mem_monthRange.mpr ⟨hlo, hhi⟩, ?_⟩
        have hdiv : monthIdx y m / 12 = y ∧ monthIdx y m % 12 + 1 = m := by
          simp only [monthIdx]
          omega
        have hfalse : (bills.any fun x => x.id == mkBillId c.id y m) = false :=
          List.any_eq_false.mpr fun b hbmem => by simp [hfree b hbmem]
        rw [hdiv.1, hdiv.2, hfalse]
        rfl
    · intro i hmem
      by_cases ht : (bills.any fun x => x.id == mkBillId c.id (i / 12) (i % 12 + 1)) = true
      · rw [if_pos ht]
        simp [ht]
      · rw [if_neg ht]
        have ht2 : (bills.any fun x => x.id == mkBillId c.id (i / 12) (i % 12 + 1)) = false :=
          Bool.eq_false_iff.mpr ht
        simp only [Option.map_some', Option.getD_some, ht2, Bool.not_false, Bool.and_true,
          Bool.and_eq_true, beq_iff_eq, monthIdx]
        omega

/-- Concrete customer for the C2 witness, the scenario of the
specification: `monthlyBill = 500`, `startDate = 2024-01-15`, Active. -/
def c2Cust : Customer := ⟨"c1", "n", "ph", "ad", "ar", 500, .ACTIVE, ⟨2024, 1, 15⟩, 0, none⟩

/-- Closed witness for `generateBills_boundary`: running on 2024-03-20
with no existing bills emits exactly one February 2024 bill for the Active
customer, and nothing for a Paused customer or a future start date. -/
theorem generateBills_boundary_witness :
    ((genCustomerBills [] ⟨2024, 3, 20⟩ c2Cust).countP
        (fun b => b.year == 2024 && b.month == 2) = 1) ∧
    (genCustomerBills [] ⟨2024, 3, 20⟩ { c2Cust with connectionStatus := .PAUSED } = []) ∧
    (genCustomerBills [] ⟨2024, 3, 20⟩ { c2Cust with startDate := ⟨2024, 4, 1⟩ } = []) :=
  ⟨((generateBills_boundary [] [] ⟨2024, 3, 20⟩ c2Cust).2.2.2.2 rfl (by decide) 2024 2
      (by decide) (by decide)).trans (by decide),
    (generateBills_boundary [] [] ⟨2024, 3, 20⟩
      { c2Cust with connectionStatus := .PAUSED }).2.1 (by decide),
    (generateBills_boundary [] [] ⟨2024, 3, 20⟩
      { c2Cust with startDate := ⟨2024, 4, 1⟩ }).2.2.1 (by decide)⟩

/-! ### C3: idempotence and key uniqueness of the generator -/

/-- The (customerId, year, month) keys of the bills emitted for one
customer are pairwise distinct. -/
theorem nodup_keys_genCustomerBills (bills : List Bill) (today : SimpleDate) (c : Customer) :
    ((genCustomerBills bills today c).map fun b => (b.customerId, b.year, b.month)).Nodup := by
  unfold genCustomerBills
  by_cases h1 : c.connectionStatus = ConnectionStatus.ACTIVE
  case neg =>
    rw [if_neg h1]
    exact List.nodup_nil
  rw [if_pos h1]
  by_cases h2 : dateLt today c.startDate = true
  case pos =>
    rw [if_pos h2]
    exact List.nodup_nil
  rw [if_neg h2]
  rw [List.map_filterMap]
  apply List.Nodup.filterMap ?_ (nodup_monthRange _ _)
  intro a a2 k hk1 hk2
  rw [Option.mem_def] at hk1 hk2
  by_cases ha : (bills.any fun x => x.id == mkBillId c.id (a / 12) (a % 12 + 1)) = true
  · rw [if_pos ha] at hk1
    exact absurd hk1 (by simp)
  rw [if_neg ha] at hk1
  by_cases ha2 : (bills.any fun x => x.id == mkBillId c.id (a2 / 12) (a2 % 12 + 1)) = true
  · rw [if_pos ha2] at hk2
    exact absurd hk2 (by simp)
  rw [if_neg ha2] at hk2
  rw [Option.map_some'] at hk1 hk2
  have hk := (Option.some.inj hk1).trans (Option.some.inj hk2).symm
  have hy : a / 12 = a2 / 12 := congrArg (fun t : String × Nat × Nat => t.2.1) hk
  have hm : a % 12 + 1 = a2 % 12 + 1 := congrArg (fun t : String × Nat × Nat => t.2.2) hk
  omega

/-- C3: the bill generator is idempotent — running it again on its own
output emits nothing and returns the output unchanged — and, provided
customer ids are distinct and the existing bills are well-formed
(deterministic id, duplicate-free keys), the final bill set contains no
two bills with the same (customerId, year, month) key. -/
theorem generateBills_idempotent (customers : List Customer) (bills : List Bill)
    (today : SimpleDate)
    (h1 : (customers.map Customer.id).Nodup)
    (h2 : ∀ b ∈ bills, b.id = mkBillId b.customerId b.year b.month)
    (h3 : (bills.map fun b => (b.customerId, b.year, b.month)).Nodup) :
    generateBills customers (generateBills customers bills today) today
        = generateBills customers bills today ∧
    ((generateBills customers bills today).map fun b => (b.customerId, b.year, b.month)).Nodup := by
  constructor
  · have hemit : ∀ c2 ∈ customers,
        genCustomerBills (generateBills customers bills today) today c2 = [] := by
      intro c2 hc2
      unfold genCustomerBills
      by_cases hA : c2.connectionStatus = ConnectionStatus.ACTIVE
      case neg =>
        rw [if_neg hA]
      rw [if_pos hA]
      by_cases hB : dateLt today c2.startDate = true
      case pos =>
        rw [if_pos hB]
      rw [if_neg hB]
      apply List.filterMap_eq_nil_iff.mpr
      intro i hi
      have hpresent : ((generateBills customers bills today).any
          fun x => x.id == mkBillId c2.id (i / 12) (i % 12 + 1)) = true := by
        rw [generateBills_eq, List.any_append]
        by_cases hex : (bills.any fun x => x.id == mkBillId c2.id (i / 12) (i % 12 + 1)) = true
        · rw [hex]
          rfl
        · rw [Bool.eq_false_iff.mpr hex, Bool.false_or]
          apply List.any_eq_true.mpr
          refine ⟨⟨mkBillId c2.id (i / 12) (i % 12 + 1), c2.id, c2.monthlyBill, i % 12 + 1,
            i / 12, .UNPAID, ⟨i / 12, i % 12 + 1, daysInMonth (i / 12) (i % 12 + 1)⟩,
            none, none, none⟩, ?_, by simp⟩
          apply List.mem_flatten.mpr
          refine ⟨genCustomerBills bills today c2, List.mem_map_of_mem _ hc2, ?_⟩
          unfold genCustomerBills
          rw [if_pos hA, if_neg hB]
          exact List.mem_filterMap.mpr ⟨i, hi, by rw [if_neg hex]⟩
      rw [if_pos hpresent]
    rw [generateBills_eq customers (generateBills customers bills today) today]
    have hnil : (customers.map (genCustomerBills (generateBills customers bills today) today)).flatten
        = [] := by
      rw [List.flatten_eq_nil_iff]
      intro l hl
      obtain ⟨c2, hc2, rfl⟩ := List.mem_map.mp hl
      exact hemit c2 hc2
    rw [hnil, List.append_nil]
  · rw [generateBills_eq, List.map_append, List.nodup_append]
    refine ⟨h3, ?_, ?_⟩
    · rw [List.map_flatten, List.map_map, List.nodup_flatten]
      constructor
      · intro l hl
        obtain ⟨c2, hc2, rfl⟩ := List.mem_map.mp hl
        exact nodup_keys_genCustomerBills bills today c2
      · rw [List.pairwise_map]
        have hpw : customers.Pairwise fun a b => a.id ≠ b.id := List.pairwise_map.mp h1
        refine hpw.imp ?_
        intro a b hab k hk1 hk2
        obtain ⟨b1, hb1, rfl⟩ := List.mem_map.mp hk1
        obtain ⟨b2, hb2, hkey⟩ := List.mem_map.mp hk2
        have e1 := (mem_genCustomerBills hb1).1
        have e2 := (mem_genCustomerBills hb2).1
        apply hab
        rw [← e1, ← e2]
        exact congrArg (fun t : String × Nat × Nat => t.1) hkey.symm
    · intro k hk1 hk2
      obtain ⟨b0, hb0, rfl⟩ := List.mem_map.mp hk1
      rw [List.map_flatten, List.map_map] at hk2
      obtain ⟨l, hl, hkl⟩ := List.mem_flatten.mp hk2
      obtain ⟨c2, hc2, rfl⟩ := List.mem_map.mp hl
      obtain ⟨b1, hb1, hkey⟩ := List.mem_map.mp hkl
      obtain ⟨e1, -, -, -, -, -, e7, e8, -, -⟩ := mem_genCustomerBills hb1
      have hcid : b1.customerId = b0.customerId :=
        congrArg (fun t : String × Nat × Nat => t.1) hkey
      have hyear : b1.year = b0.year := congrArg (fun t : String × Nat × Nat => t.2.1) hkey
      have hmonth : b1.month = b0.month := congrArg (fun t : String × Nat × Nat => t.2.2) hkey
      have hids : b0.id = b1.id := by
        rw [h2 b0 hb0, e7, ← e1, hcid, hyear, hmonth]
      have := List.any_eq_false.mp e8 b0 hb0
      simp [hids] at this

/-- Closed witness for `generateBills_idempotent` on a concrete Active
customer and an empty bill list. -/
theorem generateBills_idempotent_witness :
    (generateBills [⟨"c1", "n", "ph", "ad", "ar", 500, .ACTIVE, ⟨2024, 1, 15⟩, 0, none⟩]
        (generateBills [⟨"c1", "n", "ph", "ad", "ar", 500, .ACTIVE, ⟨2024, 1, 15⟩, 0, none⟩]
          [] ⟨2024, 3, 20⟩) ⟨2024, 3, 20⟩
      = generateBills [⟨"c1", "n", "ph", "ad", "ar", 500, .ACTIVE, ⟨2024, 1, 15⟩, 0, none⟩]
          [] ⟨2024, 3, 20⟩) ∧
    ((generateBills [⟨"c1", "n", "ph", "ad", "ar", 500, .ACTIVE, ⟨2024, 1, 15⟩, 0, none⟩]
          [] ⟨2024, 3, 20⟩).map fun b => (b.customerId, b.year, b.month)).Nodup :=
  generateBills_idempotent [⟨"c1", "n", "ph", "ad", "ar", 500, .ACTIVE, ⟨2024, 1, 15⟩, 0, none⟩]
    [] ⟨2024, 3, 20⟩ (by decide) (by decide) (by decide)

/-! ### C8: the subscription access gate -/

/-- With a positive divisor, `ceilDiv` is the ceiling of the exact
rational quotient, i.e. the value of `Math.ceil(a / b)`. -/
theorem ceilDiv_eq_ceil (a b : Int) (hb : 0 < b) :
    ceilDiv a b = ⌈((a : ℚ) / (b : ℚ))⌉ := by
  symm
  rw [Int.ceil_eq_iff]
  have hq : b * ((-a) / b) + (-a) % b = -a := Int.ediv_add_emod (-a) b
  have hr0 : 0 ≤ (-a) % b := Int.emod_nonneg (-a) (by omega)
  have hrb : (-a) % b < b := Int.emod_lt_of_pos (-a) hb
  have hbq : (0 : ℚ) < (b : ℚ) := by exact_mod_cast hb
  constructor
  · rw [lt_div_iff₀ hbq]
    have hI1 : (ceilDiv a b - 1) * b < a := by
      have hcd : ceilDiv a b = -((-a) / b) := rfl
      rw [hcd]
      nlinarith [hq, hrb]
    exact_mod_cast hI1
  · rw [div_le_iff₀ hbq]
    have hI2 : a ≤ ceilDiv a b * b := by
      have hcd : ceilDiv a b = -((-a) / b) := rfl
      rw [hcd]
      nlinarith [hq, hr0]
    exact_mod_cast hI2

/-- Lock decision of the gate core as a function of the normalized status
and the computed `trialDaysLeft`: not locked exactly for `active`,
`pending`, or `free_trial` with days left. -/
theorem useSubscriptionStatusOf_locked_iff (S : String) (e : Option Int) (n : Int) :
    (useSubscriptionStatusOf S e n).isLocked = false ↔
      (S = "active" ∨ S = "pending" ∨
        (S = "free_trial" ∧ (useSubscriptionStatusOf S e n).trialDaysLeft > 0)) := by
  by_cases hA : S = "active" <;> by_cases hP : S = "pending" <;>
    by_cases hF : S = "free_trial" <;>
    by_cases hT : (useSubscriptionStatusOf S e n).trialDaysLeft > 0 <;>
    simp [useSubscriptionStatusOf, hA, hP, hF, hT]

/-- C8 (amended): the gate computes
`trialDaysLeft = max 0 ⌈(trialEndDate − now) / day⌉` (0 when no trial end
date is set), and it is unlocked — `isLocked = false` — exactly when the
normalized status is `active`, or `pending`, or `free_trial` with
`trialDaysLeft > 0`; in particular a `free_trial` user with
`trialDaysLeft = 0` is locked, while a `pending` user is not locked even
after the trial date has passed. -/
theorem useSubscriptionStatus_gate (rawStatus : Option String) (trialEndMs : Option Int)
    (nowMs : Int) :
    ((useSubscriptionStatus rawStatus trialEndMs nowMs).isLocked = false ↔
      ((useSubscriptionStatus rawStatus trialEndMs nowMs).status = "active" ∨
        (useSubscriptionStatus rawStatus trialEndMs nowMs).status = "pending" ∨
        ((useSubscriptionStatus rawStatus trialEndMs nowMs).status = "free_trial" ∧
          (useSubscriptionStatus rawStatus trialEndMs nowMs).trialDaysLeft > 0))) ∧
    ((useSubscriptionStatus rawStatus trialEndMs nowMs).status = "free_trial" →
      (useSubscriptionStatus rawStatus trialEndMs nowMs).trialDaysLeft = 0 →
      (useSubscriptionStatus rawStatus trialEndMs nowMs).isLocked = true) ∧
    (∀ endMs : Int, trialEndMs = some endMs →
      (useSubscriptionStatus rawStatus trialEndMs nowMs).trialDaysLeft
        = max 0 ⌈(((endMs - nowMs : Int) : ℚ) / (86400000 : ℚ))⌉) ∧
    (trialEndMs = none → (useSubscriptionStatus rawStatus trialEndMs nowMs).trialDaysLeft = 0) := by
  refine ⟨?_, ?_, ?_, ?_⟩
  · exact useSubscriptionStatusOf_locked_iff (normalizeStatus rawStatus) trialEndMs nowMs
  · intro hF hT
    have hiff := useSubscriptionStatusOf_locked_iff (normalizeStatus rawStatus) trialEndMs nowMs
    have hF2 : normalizeStatus rawStatus = "free_trial" := hF
    have hT2 : (useSubscriptionStatusOf (normalizeStatus rawStatus) trialEndMs nowMs).trialDaysLeft
        = 0 := hT
    cases hLv : (useSubscriptionStatus rawStatus trialEndMs nowMs).isLocked
    · exfalso
      rcases hiff.mp hLv with h | h | ⟨-, h⟩
      · rw [hF2] at h
        exact absurd h (by decide)
      · rw [hF2] at h
        exact absurd h (by decide)
      · omega
    · rfl
  · intro endMs he
    subst he
    show max 0 (ceilDiv (endMs - nowMs) 86400000) = _
    rw [ceilDiv_eq_ceil (endMs - nowMs) 86400000 (by norm_num)]
    norm_cast
  · intro he
    subst he
    rfl

/-- Counterexample to C8 as stated: a `pending` user whose trial end date
lies in the past is NOT locked, although the status is neither `active`
nor `free_trial` with positive days — so "unlocked exactly when active or
trial-active" fails on the code. -/
theorem gate_pending_counterexample :
    (useSubscriptionStatusOf "pending" (some 0) 86400001).isLocked = false ∧
    (useSubscriptionStatusOf "pending" (some 0) 86400001).trialDaysLeft = 0 ∧
    ¬ ((useSubscriptionStatusOf "pending" (some 0) 86400001).status = "active" ∨
        ((useSubscriptionStatusOf "pending" (some 0) 86400001).status = "free_trial" ∧
          (useSubscriptionStatusOf "pending" (some 0) 86400001).trialDaysLeft > 0)) := by
  refine ⟨rfl, ?_, ?_⟩
  · show max 0 (ceilDiv (0 - 86400001) 86400000) = 0
    decide
  · intro h
    rcases h with h | ⟨h, -⟩ <;> exact absurd h (by decide)

/-- Closed witness for `useSubscriptionStatus_gate`: with no stored status
the gate normalizes to `free_trial`; one millisecond into a day yields one
trial day left by the ceiling formula, a missing trial end date yields
zero days, and an expired `free_trial` is locked. -/
theorem useSubscriptionStatus_gate_witness :
    ((useSubscriptionStatus none (some 86400001) 0).trialDaysLeft
      = max 0 ⌈(((86400001 - 0 : Int) : ℚ) / (86400000 : ℚ))⌉) ∧
    ((useSubscriptionStatus none none 0).trialDaysLeft = 0) ∧
    ((useSubscriptionStatus none none 0).isLocked = true) :=
  ⟨(useSubscriptionStatus_gate none (some 86400001) 0).2.2.1 86400001 rfl,
    (useSubscriptionStatus_gate none none 0).2.2.2 rfl,
    (useSubscriptionStatus_gate none none 0).2.1 rfl (by decide)⟩

end DishLine
